import Mathlib

/-!
Verification development for the chronicle editor core.

The definitions below are shallow embeddings of the TypeScript source:
  * `src/lib/errors.ts` — content guard (`validateContent`, `sanitizeContent`),
    error taxonomy (`ErrorType`, `EditorError` subclasses), network-error
    detection (`isNetworkError`), the timeout wrapper (`withTimeout`) and the
    retry wrapper (`withRetry`);
  * the XState editor machine module (`editorMachine`,
    `mockAIStreamingService`) built on top of that library;
  * the alternative, smaller machine module (the one handling `CANCEL`).

Strings are modelled through their character lists (`String.data`); JavaScript
string lengths are modelled by UTF-16 code-unit counts (`jsLength`);
asynchronous operations are modelled by explicit settle times and traces.
-/

namespace Chronicle

/-- JavaScript whitespace (the character class matched by the regex `\s`),
used by `String.prototype.trim` and the `/(\s+)/` token split. -/
def jsWs (c : Char) : Bool :=
  c = ' ' || c = '\t' || c = '\n' || c = '\x0b' || c = '\x0c' || c = '\r' ||
  c.toNat = 0xa0 || c.toNat = 0x1680 ||
  (0x2000 ≤ c.toNat && c.toNat ≤ 0x200a) ||
  c.toNat = 0x2028 || c.toNat = 0x2029 || c.toNat = 0x202f ||
  c.toNat = 0x205f || c.toNat = 0x3000 || c.toNat = 0xfeff

/-- UTF-16 code units contributed by one character (JS `String.length` counts
code units: astral characters count twice). -/
def utf16Units (c : Char) : Nat :=
  if c.toNat ≥ 0x10000 then 2 else 1

/-- JS `String.length` of a string. -/
def jsLength (s : String) : Nat :=
  (s.data.map utf16Units).sum

/-- A character matched by the guard regex
`/[\x00-\x08\x0B\x0C\x0E-\x1F\x7F]/` of `validateContent` and
`sanitizeContent` in `src/lib/errors.ts`. -/
def bannedChar (c : Char) : Bool :=
  c.toNat ≤ 0x08 || c.toNat = 0x0b || c.toNat = 0x0c ||
  (0x0e ≤ c.toNat && c.toNat ≤ 0x1f) || c.toNat = 0x7f

/-- Result record of `validateContent`. -/
structure ValidationResult where
  isValid : Bool
  errors : List String
deriving DecidableEq, Repr

/-- The length-violation message pushed by `validateContent`. -/
def lengthViolationMsg : String := "Content exceeds maximum length of 50,000 characters"

/-- The control-character-violation message pushed by `validateContent`. -/
def controlViolationMsg : String := "Content contains invalid control characters"

/-- Embedding of `validateContent` from `src/lib/errors.ts`: pushes the length message when
the string is longer than 50,000 code units, then the control-character
message when the banned-range regex matches; `isValid` iff no message. -/
def validateContent (content : String) : ValidationResult :=
  let errs :=
    (if jsLength content > 50000 then [lengthViolationMsg] else []) ++
    (if content.data.any bannedChar then [controlViolationMsg] else [])
  ⟨errs.isEmpty, errs⟩

/-- Embedding of `sanitizeContent` from `src/lib/errors.ts`: removes every character of the
banned control ranges (`String.prototype.replace` with the global regex and
the empty replacement), keeping all other characters in order. -/
def sanitizeContent (content : String) : String :=
  ⟨content.data.filter (fun c => !bannedChar c)⟩

/-- The closed set of error tags of `ErrorType` in `src/lib/errors.ts`. -/
inductive ErrorType where
  | EDITOR_INITIALIZATION
  | EDITOR_UPDATE
  | AI_GENERATION
  | AI_TIMEOUT
  | ANIMATION
  | VALIDATION
  | NETWORK
  | UNKNOWN
deriving DecidableEq, Repr

/-- A raw JavaScript `Error` as observed by the classifier: its `name` and
`message`. -/
structure RawError where
  name : String
  message : String
deriving DecidableEq, Repr

/-- An `EditorError` (or subclass) instance: its `type`, `message`, the
wrapped original error, and the context fields the library ever writes
(`timeoutMs`, `attempts`, `delayMs`, `isNetworkError`). -/
structure EditorErrorModel where
  type : ErrorType
  message : String
  original : Option RawError
  ctxTimeoutMs : Option Nat
  ctxAttempts : Option Nat
  ctxDelayMs : Option Nat
  ctxIsNetworkError : Option Bool
deriving DecidableEq, Repr

/-- Embedding of `new AITimeoutError(timeoutMs, ...)`: type `AI_TIMEOUT`, the fixed
message, and `timeoutMs` recorded in the context. -/
def mkAITimeoutError (timeoutMs : Nat) : EditorErrorModel :=
  ⟨.AI_TIMEOUT, "AI generation timed out after " ++ toString timeoutMs ++ "ms",
   none, some timeoutMs, none, none, none⟩

/-- Substring containment on character lists (JS `String.prototype.includes`). -/
def listIncludes (needle : List Char) : List Char → Bool
  | [] => List.isPrefixOf needle []
  | c :: rest => List.isPrefixOf needle (c :: rest) || listIncludes needle rest

/-- JS `hay.includes(needle)`. -/
def strIncludes (hay needle : String) : Bool :=
  listIncludes needle.data hay.data

/-- JS `String.prototype.toLowerCase`, restricted to the per-character lowering
the classifier relies on. -/
def jsToLower (s : String) : String :=
  ⟨s.data.map Char.toLower⟩

/-- Embedding of `isNetworkError` from `src/lib/errors.ts`: the message (lower-cased)
contains "network", "timeout" or "fetch", or the error's name is
`NetworkError`. -/
def isNetworkError (e : RawError) : Bool :=
  strIncludes (jsToLower e.message) "network" ||
  strIncludes (jsToLower e.message) "timeout" ||
  strIncludes (jsToLower e.message) "fetch" ||
  e.name = "NetworkError"

/-- A failure caught by the generation service's classification block:
either an already-classified `ValidationError` or `AIGenerationError`
instance, or a raw error. -/
inductive CaughtError where
  | validationErr (message : String)
  | aiGenErr (message : String)
  | raw (e : RawError)
deriving DecidableEq, Repr

/-- The classification performed in the `catch` block of
`mockAIGenerationService`: already-classified errors pass through unchanged;
raw errors matching `isNetworkError` are wrapped as an `AIGenerationError`
with message prefix "Network error: " and context `{isNetworkError: true}`;
all other raw errors are wrapped as an `AIGenerationError` with prefix
"Unexpected error during generation: ". -/
def classifyCaught : CaughtError → EditorErrorModel
  | .validationErr m => ⟨.VALIDATION, m, none, none, none, none, none⟩
  | .aiGenErr m => ⟨.AI_GENERATION, m, none, none, none, none, none⟩
  | .raw e =>
    if isNetworkError e then
      ⟨.AI_GENERATION, "Network error: " ++ e.message, some e, none, none, none, some true⟩
    else
      ⟨.AI_GENERATION, "Unexpected error during generation: " ++ e.message,
       some e, none, none, none, none⟩

/-! ### Timeout guard (`withTimeout`) -/

/-- An asynchronous operation as seen by the timeout race: it either settles
(fulfils or rejects) at a given time, or never settles. -/
inductive AsyncOp (α : Type) where
  | settles (time : Nat) (outcome : Except RawError α)
  | pending
deriving Repr

/-- Outcome of `withTimeout`: the operation's own value, the operation's own
rejection, or the timeout rejection injected by the deadline timer. -/
inductive WTOutcome (α : Type) where
  | ok (v : α)
  | rawErr (e : RawError)
  | timeoutErr (e : EditorErrorModel)
deriving Repr

/-- One run of `withTimeout`: the settled result, and whether the deadline
timer fired (false means `clearTimeout` cancelled it first). -/
structure WTRun (α : Type) where
  result : WTOutcome α
  timerFired : Bool
deriving Repr

/-- The outcome `withTimeout` propagates when the wrapped promise settles
first: its own value on fulfilment, its own error on rejection. -/
def settledOutcome {α : Type} : Except RawError α → WTOutcome α
  | .ok v => .ok v
  | .error e => .rawErr e

/-- Embedding of `withTimeout` from `src/lib/errors.ts`: races the promise against a
`setTimeout` deadline. If the promise settles strictly before the deadline,
its handler runs `clearTimeout` and settles the race with the promise's own
outcome; otherwise the timer fires and rejects with
`new AITimeoutError(timeoutMs, ...)`. -/
def withTimeout {α : Type} (op : AsyncOp α) (timeoutMs : Nat) : WTRun α :=
  match op with
  | .settles s out =>
    if s < timeoutMs then ⟨settledOutcome out, false⟩
    else ⟨.timeoutErr (mkAITimeoutError timeoutMs), true⟩
  | .pending => ⟨.timeoutErr (mkAITimeoutError timeoutMs), true⟩

/-! ### Retry policy (`withRetry`) -/

/-- Final result of `withRetry`: a success, the terminal wrapped
`EditorError`, or the fall-through `throw lastError!` reached only when
`maxRetries = 0` (no attempt ever ran). -/
inductive RetryResult (α : Type) where
  | ok (v : α)
  | terminal (e : EditorErrorModel)
  | noAttempts
deriving Repr

/-- Trace of a `withRetry` run: the result, how many times the operation was
invoked, and the successive waits performed between attempts. -/
structure RetryTrace (α : Type) where
  result : RetryResult α
  calls : Nat
  waits : List Nat
deriving Repr

/-- The terminal error thrown on the final failed attempt of `withRetry`:
`new EditorError(UNKNOWN, ..., lastError, { attempts: maxRetries, delayMs })`. -/
def mkRetryTerminal (maxRetries delayMs : Nat) (last : RawError) : EditorErrorModel :=
  ⟨.UNKNOWN,
   "Operation failed after " ++ toString maxRetries ++ " attempts: " ++ last.message,
   some last, none, some maxRetries, some delayMs, none⟩

/-- The attempt loop of `withRetry`, indexed by the 1-based attempt number and
the remaining loop iterations (`op k` is the outcome of the k-th invocation).
On failure at `attempt = maxRetries` the terminal wrapped error is thrown; on
an earlier failure the loop waits `delayMs * attempt` and retries. -/
def withRetryGo {α : Type} (op : Nat → Except RawError α) (maxRetries delayMs : Nat) :
    Nat → Nat → RetryTrace α
  | _, 0 => ⟨.noAttempts, 0, []⟩
  | attempt, fuel + 1 =>
    match op attempt with
    | .ok v => ⟨.ok v, 1, []⟩
    | .error e =>
      if attempt = maxRetries then
        ⟨.terminal (mkRetryTerminal maxRetries delayMs e), 1, []⟩
      else
        let rest := withRetryGo op maxRetries delayMs (attempt + 1) fuel
        ⟨rest.result, rest.calls + 1, delayMs * attempt :: rest.waits⟩

/-- Embedding of `withRetry` from `src/lib/errors.ts`: run the attempt loop from attempt 1;
the `for` loop performs at most `maxRetries` iterations. -/
def withRetry {α : Type} (op : Nat → Except RawError α) (maxRetries delayMs : Nat) :
    RetryTrace α :=
  withRetryGo op maxRetries delayMs 1 maxRetries

/-! ### String helpers used by the editor machine -/

/-- JS `String.prototype.trim` on the character list: drop trailing JS
whitespace (through the reversal), then leading JS whitespace. -/
def trimChars (l : List Char) : List Char :=
  ((l.reverse.dropWhile jsWs).reverse).dropWhile jsWs

/-- JS `s.trim()`. -/
def jsTrim (s : String) : String := ⟨trimChars s.data⟩

/-- JS `s.startsWith(c)` for a one-character argument. -/
def strStartsWithChar (s : String) (c : Char) : Bool := s.data.head? == some c

/-- JS `s.endsWith(c)` for a one-character argument. -/
def strEndsWithChar (s : String) (c : Char) : Bool := s.data.getLast? == some c

/-! ### Streaming tokenizer (`mockAIStreamingService` in `src/lib/errors.ts`) -/

/-- Run accumulator for the `/(\s+)/` split: `w` is the whitespace class of the
characters collected (reversed) in `acc`; a class change closes the current
run and opens a new one. -/
def tokenizeGo (w : Bool) (acc : List Char) : List Char → List (List Char)
  | [] => [acc.reverse]
  | c :: rest =>
    if jsWs c = w then tokenizeGo w (c :: acc) rest
    else acc.reverse :: tokenizeGo (jsWs c) [c] rest

/-- Maximal runs of same-whitespace-class characters, in order. This is
`selectedText.split(/(\s+)/)` with the empty fragments removed, which is what
`.filter(token => token.length > 0)` leaves. -/
def tokenizeRuns : List Char → List (List Char)
  | [] => []
  | c :: rest => tokenizeGo (jsWs c) [c] rest

/-- The token list streamed by `mockAIStreamingService` for a selected
continuation text: `selectedText.split(/(\s+)/).filter(token => token.length > 0)`. -/
def mockStreamTokens (selectedText : String) : List String :=
  (tokenizeRuns selectedText.data).map (fun l => ⟨l⟩)

/-- Re-joining emitted tokens in order (`tokens.join('')`). -/
def joinTokens (tokens : List String) : String :=
  ⟨(tokens.map String.data).flatten⟩

/-! ### The editor machine of the full module (built on `src/lib/errors.ts`) -/

/-- The machine context (`EditorContext`). -/
structure EditorContext where
  content : String
  generatedText : String
  streamingText : String
  error : Option String
  lastGenerationTime : Option Nat
  generationCount : Nat
  retryCount : Nat
  isRetrying : Bool
deriving DecidableEq, Repr

/-- The external events of the machine (`EditorEvent`). `RETRY` is declared in
the union exactly as in the source, where no state installs a handler for it. -/
inductive EditorEvent where
  | CONTINUE_WRITING
  | STREAM_TOKEN (token : String)
  | STREAM_COMPLETE
  | GENERATION_ERROR (error : String)
  | UPDATE_CONTENT (content : String)
  | CLEAR_ERROR
  | RETRY
  | RESET
deriving DecidableEq, Repr

/-- The machine's state tags. -/
inductive EState where
  | idle
  | loading
  | success
  | error
deriving DecidableEq, Repr

/-- The initial context of `editorMachine`. -/
def initialContext : EditorContext := ⟨"", "", "", none, none, 0, 0, false⟩

/-- The `CONTINUE_WRITING` guard in `idle`: content must validate and be
non-blank after trimming. -/
def continueGuard (ctx : EditorContext) : Bool :=
  (validateContent ctx.content).isValid && !(jsTrim ctx.content).data.isEmpty

/-- The `loading` state's entry action: clear `streamingText` and
`generatedText`. -/
def loadingEntry (ctx : EditorContext) : EditorContext :=
  { ctx with streamingText := "", generatedText := "" }

/-- The merge performed by the `success` state's entry `content` assign:
return `content` unchanged when `generatedText` is absent or blank; otherwise
trim both sides, return the trimmed generation when trimmed `content` is
empty, and otherwise concatenate with a space unless the trimmed content ends
in `.`, `!` or `?` or the trimmed generation starts with a space. -/
def mergeContent (content generatedText : String) : String :=
  if generatedText.data.isEmpty || (jsTrim generatedText).data.isEmpty then content
  else
    let trimmedContent := jsTrim content
    let trimmedGenerated := jsTrim generatedText
    if trimmedContent.data.isEmpty then trimmedGenerated
    else
      let needsSpace :=
        !(strEndsWithChar trimmedContent '.') &&
        !(strEndsWithChar trimmedContent '!') &&
        !(strEndsWithChar trimmedContent '?') &&
        !(strStartsWithChar trimmedGenerated ' ')
      trimmedContent ++ (if needsSpace then " " else "") ++ trimmedGenerated

/-- The `success` state's entry action: merge the generation into `content`,
clear `generatedText`, clear `error`, and increment `generationCount`. -/
def successEntry (ctx : EditorContext) : EditorContext :=
  { ctx with
    content := mergeContent ctx.content ctx.generatedText,
    generatedText := "",
    error := none,
    generationCount := ctx.generationCount + 1 }

/-- The `RESET` assign: it restores the six listed fields and leaves
`retryCount` and `isRetrying` untouched, exactly as in the source. -/
def resetContext (ctx : EditorContext) : EditorContext :=
  { ctx with
    content := "",
    generatedText := "",
    streamingText := "",
    error := none,
    lastGenerationTime := none,
    generationCount := 0 }

/-- The `content` assign of `UPDATE_CONTENT` in `idle`: sanitize the incoming
content, validate the sanitized text, store the sanitized text when it
validates and the incoming text as given otherwise. -/
def updatedIdleContent (c : String) : String :=
  let sanitized := sanitizeContent c
  if (validateContent sanitized).isValid then sanitized else c

/-- One step of `editorMachine` on an external event (`now` is the value
`Date.now()` returns during the transition). Events without a handler in the
current state leave state and context unchanged, which is the XState
semantics for unhandled events. -/
def editorStep (now : Nat) : EState → EditorContext → EditorEvent → EState × EditorContext
  | .idle, ctx, .CONTINUE_WRITING =>
    if continueGuard ctx then
      (.loading, loadingEntry { ctx with
        error := none, lastGenerationTime := some now, retryCount := 0, isRetrying := false })
    else (.idle, ctx)
  | .idle, ctx, .UPDATE_CONTENT c => (.idle, { ctx with content := updatedIdleContent c })
  | .idle, ctx, .CLEAR_ERROR => (.idle, { ctx with error := none })
  | .idle, ctx, .RESET => (.idle, resetContext ctx)
  | .idle, ctx, _ => (.idle, ctx)
  | .loading, ctx, .UPDATE_CONTENT c => (.loading, { ctx with content := c })
  | .loading, ctx, .CLEAR_ERROR => (.loading, { ctx with error := none })
  | .loading, ctx, .RESET => (.idle, resetContext ctx)
  | .loading, ctx, _ => (.loading, ctx)
  | .success, ctx, .CONTINUE_WRITING =>
    (.loading, loadingEntry { ctx with error := none, lastGenerationTime := some now })
  | .success, ctx, .UPDATE_CONTENT c => (.success, { ctx with content := c })
  | .success, ctx, .CLEAR_ERROR => (.success, { ctx with error := none })
  | .success, ctx, .RESET => (.idle, resetContext ctx)
  | .success, ctx, _ => (.success, ctx)
  | .error, ctx, .CONTINUE_WRITING =>
    (.loading, loadingEntry { ctx with
      error := none, generatedText := "", lastGenerationTime := some now })
  | .error, ctx, .UPDATE_CONTENT c => (.error, { ctx with content := c })
  | .error, ctx, .CLEAR_ERROR => (.idle, { ctx with error := none })
  | .error, ctx, .RESET => (.idle, resetContext ctx)
  | .error, ctx, _ => (.error, ctx)

/-- The fallback applied to the invoke failure message:
`(event.error as Error)?.message || 'AI generation failed'`. -/
def errorMessageOrDefault : Option String → String
  | some s => if s.data.isEmpty then "AI generation failed" else s
  | none => "AI generation failed"

/-- The `onDone` transition of the `loading` invoke: store the output in
`generatedText`, clear `streamingText` and `error`, and enter `success`
(whose entry action runs). -/
def loadingDone (ctx : EditorContext) (output : String) : EState × EditorContext :=
  (.success, successEntry { ctx with generatedText := output, streamingText := "", error := none })

/-- The `onError` transition of the `loading` invoke: store the message (with
fallback), clear the texts, and enter `error`. -/
def loadingFailed (ctx : EditorContext) (msg : Option String) : EState × EditorContext :=
  (.error, { ctx with
    error := some (errorMessageOrDefault msg), generatedText := "", streamingText := "" })

/-- The delayed transition of `success` (`after 150 -> idle`). -/
def successAfter (ctx : EditorContext) : EState × EditorContext := (.idle, ctx)

/-- The delayed transition of `error` (`after 10000 -> idle`, clearing the
error). -/
def errorAfter (ctx : EditorContext) : EState × EditorContext :=
  (.idle, { ctx with error := none })

end Chronicle

namespace Chronicle.CancelMachine

/-- Context of the smaller machine module (the one handling `CANCEL`):
`{ content, error }`. -/
structure Ctx where
  content : String
  error : Option String
deriving DecidableEq, Repr

/-- Events of the smaller machine. -/
inductive Event where
  | UPDATE_CONTENT (content : String)
  | CONTINUE_WRITING
  | CANCEL
  | CLEAR_ERROR
deriving DecidableEq, Repr

/-- State tags of the smaller machine. -/
inductive MState where
  | idle
  | loading
  | streaming
  | error
deriving DecidableEq, Repr

/-- One step of the smaller `editorMachine`: `idle` stores content updates and
starts `loading` on `CONTINUE_WRITING`; `loading` and `streaming` return to
`idle` on `CANCEL` with no action; `error` clears on `CLEAR_ERROR`. Events
without a handler leave the configuration unchanged (XState semantics). -/
def step : MState × Ctx → Event → MState × Ctx
  | (.idle, ctx), .UPDATE_CONTENT c => (.idle, { ctx with content := c })
  | (.idle, ctx), .CONTINUE_WRITING => (.loading, ctx)
  | (.idle, ctx), _ => (.idle, ctx)
  | (.loading, ctx), .CANCEL => (.idle, ctx)
  | (.loading, ctx), .UPDATE_CONTENT c => (.loading, { ctx with content := c })
  | (.loading, ctx), _ => (.loading, ctx)
  | (.streaming, ctx), .CANCEL => (.idle, ctx)
  | (.streaming, ctx), _ => (.streaming, ctx)
  | (.error, ctx), .CLEAR_ERROR => (.idle, { ctx with error := none })
  | (.error, ctx), _ => (.error, ctx)

/-- Initial configuration: `idle` with `{ content: '', error: null }`. -/
def initial : MState × Ctx := (.idle, ⟨"", none⟩)

/-- The configuration after processing a list of events from the initial
configuration. -/
def run (events : List Event) : MState × Ctx := events.foldl step initial

end Chronicle.CancelMachine

namespace Chronicle

/-! ### Helper lemmas -/

/-- Filtering twice with the same predicate filters once. -/
theorem filter_self_idem {α : Type} (p : α → Bool) (l : List α) :
    (l.filter p).filter p = l.filter p := by
  induction l with
  | nil => rfl
  | cons a l ih => by_cases h : p a <;> simp [List.filter_cons, h, ih]

/-- After removing every banned character, no banned character remains. -/
theorem sanitized_no_banned (l : List Char) :
    (l.filter fun c => !bannedChar c).any bannedChar = false := by
  induction l with
  | nil => rfl
  | cons a l ih => by_cases h : bannedChar a <;> simp [List.filter_cons, h, ih]

/-- The error list of `validateContent` on sanitized content reduces to the
length check alone. -/
theorem validate_sanitized_errors (x : String) :
    (validateContent (sanitizeContent x)).errors =
      (if jsLength (sanitizeContent x) > 50000 then [lengthViolationMsg] else []) := by
  unfold validateContent
  have h : (sanitizeContent x).data.any bannedChar = false := sanitized_no_banned x.data
  simp [h]

/-! ### Claim theorems C9 and C10 -/

/-- C9: the sanitize operation is idempotent — for every input string `x`,
`sanitizeContent (sanitizeContent x) = sanitizeContent x`. -/
theorem sanitizeContent_idempotent (x : String) :
    sanitizeContent (sanitizeContent x) = sanitizeContent x := by
  show (⟨((x.data.filter fun c => !bannedChar c).filter fun c => !bannedChar c)⟩ : String)
      = ⟨x.data.filter fun c => !bannedChar c⟩
  rw [filter_self_idem]

/-- C10: for every input string `x`, `sanitizeContent x` contains no character
of the banned control ranges, while every other character of `x` is kept in
order (the output characters are exactly the non-banned characters of `x`, a
sublist of `x`); consequently `validateContent (sanitizeContent x)` never
reports the control-character violation, and it reports the length violation
exactly when the sanitized content is longer than 50,000 units. -/
theorem sanitize_validate_interplay (x : String) :
    (((sanitizeContent x).data.all fun c => !bannedChar c) = true) ∧
    (sanitizeContent x).data = x.data.filter (fun c => !bannedChar c) ∧
    (sanitizeContent x).data.Sublist x.data ∧
    controlViolationMsg ∉ (validateContent (sanitizeContent x)).errors ∧
    (lengthViolationMsg ∈ (validateContent (sanitizeContent x)).errors ↔
      jsLength (sanitizeContent x) > 50000) := by
  refine ⟨?_, rfl, List.filter_sublist x.data, ?_, ?_⟩
  · rw [List.all_eq_true]
    intro c hc
    exact (List.mem_filter.mp hc).2
  · rw [validate_sanitized_errors]
    have hne : controlViolationMsg ≠ lengthViolationMsg := by decide
    split <;> simp [hne]
  · rw [validate_sanitized_errors]
    split <;> simp_all

/-! ### Claim theorem C4 -/

/-- C4: a raw failure whose message contains "timeout" case-insensitively is
detected by `isNetworkError` and is classified as a network-flavoured
generation failure (`AI_GENERATION` with `isNetworkError: true` in the
context), never as the `AI_TIMEOUT` kind; no classification of a caught
failure ever yields `AI_TIMEOUT` — that kind arises only from
`mkAITimeoutError`, the error the timeout guard's own deadline constructs. -/
theorem timeout_message_is_network (e : RawError)
    (h : strIncludes (jsToLower e.message) "timeout" = true) :
    isNetworkError e = true ∧
    (classifyCaught (.raw e)).type = .AI_GENERATION ∧
    (classifyCaught (.raw e)).ctxIsNetworkError = some true ∧
    (classifyCaught (.raw e)).type ≠ .AI_TIMEOUT ∧
    (∀ c : CaughtError, (classifyCaught c).type ≠ .AI_TIMEOUT) ∧
    (∀ t : Nat, (mkAITimeoutError t).type = .AI_TIMEOUT ∧
      (withTimeout (AsyncOp.pending : AsyncOp Nat) t).result = .timeoutErr (mkAITimeoutError t)) := by
  have hnet : isNetworkError e = true := by
    unfold isNetworkError
    rw [h]
    simp
  have hcls : ∀ c : CaughtError, (classifyCaught c).type ≠ .AI_TIMEOUT := by
    intro c
    cases c with
    | validationErr m => simp [classifyCaught]
    | aiGenErr m => simp [classifyCaught]
    | raw e2 => by_cases h2 : isNetworkError e2 <;> simp [classifyCaught, h2]
  refine ⟨hnet, ?_, ?_, hcls _, hcls, fun t => ⟨rfl, rfl⟩⟩
  · simp [classifyCaught, hnet]
  · simp [classifyCaught, hnet]

/-- Witness for C4 at the concrete error message "Request TIMEOUT reached"
(upper case, so the case-insensitive detection is exercised). -/
theorem timeout_message_is_network_witness :
    isNetworkError ⟨"Error", "Request TIMEOUT reached"⟩ = true ∧
    (classifyCaught (.raw ⟨"Error", "Request TIMEOUT reached"⟩)).type = .AI_GENERATION := by
  have h := timeout_message_is_network ⟨"Error", "Request TIMEOUT reached"⟩ (by decide)
  exact ⟨h.1, h.2.1⟩

/-! ### Claim theorem C6 -/

/-- C6: if the operation settles strictly before the deadline, `withTimeout`
yields exactly the operation's own outcome (value on fulfilment, its own
error on rejection) and the deadline timer is cancelled (it never fires); if
the operation does not settle within the deadline, `withTimeout` fails with
the timeout-classified error carrying `timeoutMs` in its context — the
equation holds uniformly in the operation's eventual outcome, so the
operation is not awaited further. -/
theorem withTimeout_spec {α : Type} (t : Nat) :
    (∀ (s : Nat) (out : Except RawError α), s < t →
      withTimeout (.settles s out) t = ⟨settledOutcome out, false⟩) ∧
    (∀ op : AsyncOp α, (∀ s out, op = .settles s out → ¬ s < t) →
      withTimeout op t = ⟨.timeoutErr (mkAITimeoutError t), true⟩) ∧
    (mkAITimeoutError t).ctxTimeoutMs = some t ∧
    (mkAITimeoutError t).type = .AI_TIMEOUT := by
  refine ⟨?_, ?_, rfl, rfl⟩
  · intro s out h
    simp [withTimeout, h]
  · intro op h
    cases op with
    | settles s out => simp [withTimeout, h s out rfl]
    | pending => rfl

/-- Witness for C6: a concrete operation settling at time 10 beats the
50-tick deadline and yields its own value; a never-settling operation yields
the timeout error. -/
theorem withTimeout_spec_witness :
    withTimeout (AsyncOp.settles 10 (Except.ok 7)) 50 = ⟨WTOutcome.ok 7, false⟩ ∧
    withTimeout (AsyncOp.pending : AsyncOp Nat) 50 =
      ⟨.timeoutErr (mkAITimeoutError 50), true⟩ :=
  ⟨(withTimeout_spec 50).1 10 (.ok 7) (by omega),
   (withTimeout_spec 50).2.1 .pending (fun s out h => nomatch h)⟩

/-! ### Claim theorem C3 -/

/-- The final attempt's failure throws the terminal wrapped error. -/
theorem withRetryGo_final {α : Type} (op : Nat → Except RawError α) (m d fl : Nat)
    (e : RawError) (hop : op m = Except.error e) :
    withRetryGo op m d m (fl + 1) = ⟨.terminal (mkRetryTerminal m d e), 1, []⟩ := by
  simp [withRetryGo, hop]

/-- A failure before the final attempt waits `delayMs * attempt` and retries. -/
theorem withRetryGo_fail_step {α : Type} (op : Nat → Except RawError α) (m d a fl : Nat)
    (e : RawError) (hop : op a = Except.error e) (hne : a ≠ m) :
    withRetryGo op m d a (fl + 1) =
      ⟨(withRetryGo op m d (a + 1) fl).result,
       (withRetryGo op m d (a + 1) fl).calls + 1,
       d * a :: (withRetryGo op m d (a + 1) fl).waits⟩ := by
  simp [withRetryGo, hop, hne]

/-- Peeling one attempt off the linear-backoff wait schedule. -/
theorem range_map_shift (d a f : Nat) :
    (List.range (f + 1)).map (fun k => d * (a + k)) =
      d * a :: (List.range f).map (fun k => d * (a + 1 + k)) := by
  rw [List.range_succ_eq_map, List.map_cons, List.map_map]
  simp only [Nat.add_zero]
  have hfun : ((fun k => d * (a + k)) ∘ Nat.succ) = fun k => d * (a + 1 + k) := by
    funext k
    simp only [Function.comp_apply]
    congr 1
    omega
  rw [hfun]

/-- On an operation that fails at every attempt, the retry loop started at
attempt `a` with `f + 1` iterations left performs all `f + 1` calls, waits
`delayMs * attempt` after each non-final failure, and ends in the terminal
wrapped error built from the final attempt's failure. -/
theorem withRetryGo_all_fail {α : Type} (op : Nat → Except RawError α) (err : Nat → RawError)
    (m d : Nat) (hop : ∀ k, op k = .error (err k)) :
    ∀ (f a : Nat), a + f = m →
      withRetryGo op m d a (f + 1) =
        ⟨.terminal (mkRetryTerminal m d (err m)), f + 1,
         (List.range f).map fun k => d * (a + k)⟩ := by
  intro f
  induction f with
  | zero =>
    intro a ha
    have ham : a = m := by omega
    rw [ham]
    simp [withRetryGo_final op m d 0 (err m) (hop m)]
  | succ f ih =>
    intro a ha
    have hne : a ≠ m := by omega
    have h2 : a + 1 + f = m := by omega
    rw [withRetryGo_fail_step op m d a (f + 1) (err a) (hop a) hne, ih (a + 1) h2,
      range_map_shift]

/-- C3: for an operation that fails on every invocation and `n ≥ 1`,
`withRetry op n d` invokes the operation exactly `n` times, waits `d * k`
after the k-th failure for every `k < n`, and ends with a single terminal
wrapped `EditorError` (not the raw last error) of kind `UNKNOWN` carrying
`{attempts: n, delayMs: d}` and the raw last error inside; the trace ends at
that terminal error, so it is never itself retried. -/
theorem withRetry_always_fails {α : Type} (op : Nat → Except RawError α) (err : Nat → RawError)
    (n d : Nat) (hop : ∀ k, op k = .error (err k)) (hn : 1 ≤ n) :
    withRetry op n d =
      ⟨.terminal (mkRetryTerminal n d (err n)), n,
       (List.range (n - 1)).map fun k => d * (1 + k)⟩ ∧
    (mkRetryTerminal n d (err n)).type = .UNKNOWN ∧
    (mkRetryTerminal n d (err n)).ctxAttempts = some n ∧
    (mkRetryTerminal n d (err n)).ctxDelayMs = some d ∧
    (mkRetryTerminal n d (err n)).original = some (err n) := by
  refine ⟨?_, rfl, rfl, rfl, rfl⟩
  unfold withRetry
  have h := withRetryGo_all_fail op err n d hop (n - 1) 1 (by omega)
  have hn1 : n - 1 + 1 = n := by omega
  rw [hn1] at h
  exact h

/-- Witness for C3: `withRetry` with 3 attempts and base delay 100 on an
always-failing operation calls it 3 times, waits 100 then 200, and ends in
the wrapped terminal error. -/
theorem withRetry_always_fails_witness :
    withRetry (fun _ => (Except.error ⟨"Error", "boom"⟩ : Except RawError Nat)) 3 100 =
      ⟨.terminal (mkRetryTerminal 3 100 ⟨"Error", "boom"⟩), 3,
       (List.range 2).map fun k => 100 * (1 + k)⟩ ∧
    ((List.range 2).map fun k => 100 * (1 + k)) = [100, 200] :=
  ⟨(withRetry_always_fails _ (fun _ => ⟨"Error", "boom"⟩) 3 100 (fun _ => rfl) (by omega)).1,
   by decide⟩

/-! ### Claim theorem C7 -/

/-- A token is well-formed when it is non-empty and homogeneous: all
whitespace (a preserved separator token) or all non-whitespace (a word). -/
def tokenOk (t : List Char) : Bool :=
  !t.isEmpty && (t.all jsWs || t.all fun c => !jsWs c)

/-- Flattening the groups produced by the run accumulator restores the
pending accumulator followed by the remaining input. -/
theorem tokenizeGo_flatten (l : List Char) : ∀ (w : Bool) (acc : List Char),
    (tokenizeGo w acc l).flatten = acc.reverse ++ l := by
  induction l with
  | nil => intro w acc; simp [tokenizeGo]
  | cons c rest ih =>
    intro w acc
    by_cases h : jsWs c = w
    · simp [tokenizeGo, h, ih]
    · simp [tokenizeGo, h, ih]

/-- Flattening the whitespace-class runs of a character list restores it. -/
theorem tokenizeRuns_flatten (l : List Char) : (tokenizeRuns l).flatten = l := by
  cases l with
  | nil => rfl
  | cons c rest => simp [tokenizeRuns, tokenizeGo_flatten]

/-- A reversed accumulator of same-class characters is a well-formed token. -/
theorem tokenOk_rev (w : Bool) (acc : List Char) (hne : acc ≠ [])
    (hacc : ∀ c ∈ acc, jsWs c = w) : tokenOk acc.reverse = true := by
  have hmem : ∀ c ∈ acc.reverse, jsWs c = w := by
    intro c hc
    exact hacc c (List.mem_reverse.mp hc)
  rw [tokenOk, Bool.and_eq_true, Bool.or_eq_true]
  constructor
  · simp [hne]
  · cases w with
    | true =>
      left
      rw [List.all_eq_true]
      intro c hc
      exact hmem c hc
    | false =>
      right
      rw [List.all_eq_true]
      intro c hc
      simp [hmem c hc]

/-- Every group produced by the run accumulator is a well-formed token, given
a non-empty, class-homogeneous accumulator. -/
theorem tokenizeGo_ok (l : List Char) : ∀ (w : Bool) (acc : List Char), acc ≠ [] →
    (∀ c ∈ acc, jsWs c = w) → ∀ g ∈ tokenizeGo w acc l, tokenOk g = true := by
  induction l with
  | nil =>
    intro w acc hne hacc g hg
    simp [tokenizeGo] at hg
    subst hg
    exact tokenOk_rev w acc hne hacc
  | cons c rest ih =>
    intro w acc hne hacc g hg
    by_cases h : jsWs c = w
    · rw [tokenizeGo, if_pos h] at hg
      refine ih w (c :: acc) (by simp) ?_ g hg
      intro x hx
      rcases List.mem_cons.mp hx with hx | hx
      · rw [hx]; exact h
      · exact hacc x hx
    · rw [tokenizeGo, if_neg h] at hg
      rcases List.mem_cons.mp hg with hg | hg
      · rw [hg]; exact tokenOk_rev w acc hne hacc
      · exact ih (jsWs c) [c] (by simp) (by simp) g hg

/-- C7: joining the tokens emitted by the streaming generator of the full
module in emission order reconstructs the selected continuation text exactly,
and every emitted token is non-empty and either pure whitespace or free of
whitespace — whitespace is preserved as its own tokens. -/
theorem stream_tokens_reconstruct (selectedText : String) :
    joinTokens (mockStreamTokens selectedText) = selectedText ∧
    ((mockStreamTokens selectedText).all fun t => tokenOk t.data) = true := by
  constructor
  · have h1 : (mockStreamTokens selectedText).map String.data =
        tokenizeRuns selectedText.data := by
      unfold mockStreamTokens
      rw [List.map_map]
      have h2 : (String.data ∘ fun l : List Char => (⟨l⟩ : String)) = id := rfl
      rw [h2, List.map_id]
    unfold joinTokens
    rw [h1, tokenizeRuns_flatten]
  · rw [List.all_eq_true]
    intro t ht
    rcases List.mem_map.mp ht with ⟨g, hg, hmk⟩
    have hok : tokenOk g = true := by
      cases hl : selectedText.data with
      | nil =>
        rw [hl] at hg
        simp [tokenizeRuns] at hg
      | cons c rest =>
        rw [hl] at hg
        simp only [tokenizeRuns] at hg
        exact tokenizeGo_ok rest (jsWs c) [c] (by simp) (by simp) g hg
    rw [← hmk]
    exact hok

/-! ### Claim theorems C2 (success-entry merge) -/

/-- The head of a `dropWhile` result never satisfies the dropped predicate. -/
theorem dropWhile_head_not (p : Char → Bool) :
    ∀ (l : List Char) (c : Char) (t : List Char), l.dropWhile p = c :: t → p c = false := by
  intro l
  induction l with
  | nil => intro c t h; exact absurd h (by simp)
  | cons a as ih =>
    intro c t h
    by_cases hp : p a
    · rw [List.dropWhile_cons, if_pos hp] at h
      exact ih c t h
    · rw [List.dropWhile_cons, if_neg hp] at h
      cases h
      exact Bool.not_eq_true _ |>.mp hp

/-- A non-empty trimmed string never starts with a space character. -/
theorem trim_not_startsWith_space (g : String) (h : (jsTrim g).data ≠ []) :
    strStartsWithChar (jsTrim g) ' ' = false := by
  unfold strStartsWithChar
  cases hd : (jsTrim g).data with
  | nil => exact absurd hd h
  | cons c t =>
    have hc : jsWs c = false :=
      dropWhile_head_not jsWs ((g.data.reverse.dropWhile jsWs).reverse) c t hd
    have hcs : c ≠ ' ' := by
      intro hcs
      rw [hcs] at hc
      exact absurd hc (by decide)
    simp [hcs]

/-- The success-entry merge with the vacuous leading-space check removed:
blank generations leave `content` unchanged; otherwise both sides are
trimmed, an empty trimmed `content` is replaced by the trimmed generation,
and otherwise the two are concatenated with a single space unless the trimmed
`content` ends with `.`, `!` or `?`. -/
def mergeContentAmended (content generatedText : String) : String :=
  if generatedText.data.isEmpty || (jsTrim generatedText).data.isEmpty then content
  else if (jsTrim content).data.isEmpty then jsTrim generatedText
  else
    let needsSpace :=
      !(strEndsWithChar (jsTrim content) '.') &&
      !(strEndsWithChar (jsTrim content) '!') &&
      !(strEndsWithChar (jsTrim content) '?')
    jsTrim content ++ (if needsSpace then " " else "") ++ jsTrim generatedText

/-- The merge rule exactly as the claim words it: the space is suppressed
when the trimmed `content` ends with terminal punctuation or when the (raw)
`generatedText` starts with whitespace. -/
def mergeContentClaim (content generatedText : String) : String :=
  if generatedText.data.isEmpty || (jsTrim generatedText).data.isEmpty then content
  else if (jsTrim content).data.isEmpty then jsTrim generatedText
  else
    let needsSpace :=
      !(strEndsWithChar (jsTrim content) '.') &&
      !(strEndsWithChar (jsTrim content) '!') &&
      !(strEndsWithChar (jsTrim content) '?') &&
      !(match generatedText.data.head? with | some ch => jsWs ch | none => false)
    jsTrim content ++ (if needsSpace then " " else "") ++ jsTrim generatedText

/-- The source merge agrees with the amended rule: the leading-space test on
the trimmed generation can never fire. -/
theorem mergeContent_eq_amended (c g : String) :
    mergeContent c g = mergeContentAmended c g := by
  unfold mergeContent mergeContentAmended
  by_cases h1 : (g.data.isEmpty || (jsTrim g).data.isEmpty) = true
  · simp [h1]
  · have h1f : (g.data.isEmpty || (jsTrim g).data.isEmpty) = false :=
      Bool.not_eq_true _ |>.mp h1
    have hne : (jsTrim g).data ≠ [] := by
      rcases Bool.or_eq_false_iff.mp h1f with ⟨_, h3⟩
      simpa using h3
    simp only [h1f, Bool.false_eq_true, if_false]
    by_cases h2 : (jsTrim c).data.isEmpty = true
    · simp [h2]
    · have h2f : (jsTrim c).data.isEmpty = false := Bool.not_eq_true _ |>.mp h2
      simp only [h2f, Bool.false_eq_true, if_false,
        trim_not_startsWith_space g hne, Bool.not_false, Bool.and_true]

/-- Counterexample to C2 as stated: with `content = "Hello world"` and
`generatedText = " The sun"` (which starts with whitespace), the claim's rule
suppresses the separating space and yields "Hello worldThe sun", but the code
trims the generation first and still inserts the space, yielding
"Hello world The sun". -/
theorem merge_claim_counterexample :
    mergeContent "Hello world" " The sun" = "Hello world The sun" ∧
    mergeContentClaim "Hello world" " The sun" = "Hello worldThe sun" ∧
    mergeContent "Hello world" " The sun" ≠ mergeContentClaim "Hello world" " The sun" := by
  refine ⟨by decide, by decide, by decide⟩

/-- C2 (amended): on entry to `success` the context is updated by exactly the
amended merge rule — blank generation leaves `content` unchanged, otherwise
both sides are trimmed, an empty trimmed `content` becomes the trimmed
generation, and otherwise they are joined with a single space unless the
trimmed `content` ends with '.', '!' or '?' (the code's further check whether
the trimmed generation starts with a space never fires) — while
`generatedText` is cleared, `error` is cleared and `generationCount`
increases by exactly 1; in particular merging "The sun" into "Hello world"
yields "Hello world The sun". -/
theorem success_entry_merge (ctx : EditorContext) :
    successEntry ctx =
      { ctx with
        content := mergeContentAmended ctx.content ctx.generatedText,
        generatedText := "",
        error := none,
        generationCount := ctx.generationCount + 1 } ∧
    mergeContent "Hello world" "The sun" = "Hello world The sun" := by
  constructor
  · unfold successEntry
    rw [mergeContent_eq_amended]
  · decide

end Chronicle

namespace Chronicle

/-! ### Claim theorems C1 (UPDATE_CONTENT in idle) -/

/-- Counterexample to C1 as stated: the event content "a\x00b" contains a
disallowed control character, so it fails Content Guard validation; yet the
machine does not keep the prior content "x" — it stores the sanitized text
"ab" — and no Validation error is stored in the context (`error` stays
`none`). -/
theorem update_content_counterexample :
    (validateContent "a\x00b").isValid = false ∧
    editorStep 0 .idle ⟨"x", "", "", none, none, 0, 0, false⟩ (.UPDATE_CONTENT "a\x00b") =
      (.idle, ⟨"ab", "", "", none, none, 0, 0, false⟩) ∧
    ("ab" : String) ≠ "x" ∧
    (editorStep 0 .idle ⟨"x", "", "", none, none, 0, 0, false⟩
      (.UPDATE_CONTENT "a\x00b")).2.error = none := by
  refine ⟨by decide, by decide, by decide, by decide⟩

/-- C1 (amended): on `UPDATE_CONTENT` in `idle` the machine stays in `idle`
and always replaces `content`: with the sanitized event content when the
sanitized text passes validation, and with the raw event content as given
otherwise; the prior content is never kept, and the context `error` field is
not modified (the Validation failure is only logged). -/
theorem update_content_idle (now : Nat) (ctx : EditorContext) (c : String) :
    editorStep now .idle ctx (.UPDATE_CONTENT c) =
      (.idle, { ctx with content :=
        if (validateContent (sanitizeContent c)).isValid then sanitizeContent c else c }) ∧
    (editorStep now .idle ctx (.UPDATE_CONTENT c)).2.error = ctx.error :=
  ⟨rfl, rfl⟩

/-! ### Claim theorems C8 (RETRY event) -/

/-- Counterexample to C8 as stated: in the `error` state a `RETRY` event
leaves the configuration completely unchanged — in particular `retryCount`
stays 0 instead of being incremented to 1, and the machine neither re-enters
`loading` nor records any terminal-exhausted classification. -/
theorem retry_counterexample :
    editorStep 0 .error ⟨"Hello", "", "", some "AI generation failed", none, 0, 0, false⟩
        .RETRY =
      (.error, ⟨"Hello", "", "", some "AI generation failed", none, 0, 0, false⟩) ∧
    (editorStep 0 .error ⟨"Hello", "", "", some "AI generation failed", none, 0, 0, false⟩
        .RETRY).2.retryCount ≠
      (⟨"Hello", "", "", some "AI generation failed", none, 0, 0, false⟩ :
        EditorContext).retryCount + 1 := by
  refine ⟨rfl, by decide⟩

/-- C8 (amended): the `RETRY` event is declared in the event union but no
state installs a handler for it, so in every state — in particular `error` —
it is ignored: the state and the whole context, including `retryCount`, are
unchanged. -/
theorem retry_unhandled (now : Nat) (s : EState) (ctx : EditorContext) :
    editorStep now s ctx .RETRY = (s, ctx) := by
  cases s <;> rfl

end Chronicle

namespace Chronicle.CancelMachine

/-! ### Claim theorems C5 (CANCEL) -/

/-- One step of the smaller machine preserves a null `error` field: no
transition of that machine ever assigns a non-null error. -/
theorem step_error_none (st : MState × Ctx) (e : Event) (h : st.2.error = none) :
    (step st e).2.error = none := by
  obtain ⟨s, ctx⟩ := st
  cases s <;> cases e <;> simp_all [step]

/-- Folding the step function from an error-free configuration keeps the
error field null. -/
theorem foldl_error_none :
    ∀ (es : List Event) (st : MState × Ctx), st.2.error = none →
      (es.foldl step st).2.error = none := by
  intro es
  induction es with
  | nil => intro st h; exact h
  | cons e es ih =>
    intro st h
    exact ih (step st e) (step_error_none st e h)

/-- C5: in any reachable run of the machine that handles `CANCEL`, issuing
`CANCEL` in `loading` or `streaming` transitions to `idle` with the context
untouched and no error raised: the resulting `error` is null (no reachable
configuration ever has a non-null error), and entering a generation
(`CONTINUE_WRITING` from `idle`) also leaves `content` untouched, so content
equals its value from before the generation began. -/
theorem cancel_returns_idle (es : List Event) (s : MState) (ctx : Ctx)
    (hrun : run es = (s, ctx)) (hs : s = .loading ∨ s = .streaming) :
    step (s, ctx) .CANCEL = (.idle, ctx) ∧
    ctx.error = none ∧
    (∀ c : Ctx, step (.idle, c) .CONTINUE_WRITING = (.loading, c)) := by
  refine ⟨?_, ?_, fun c => rfl⟩
  · rcases hs with h | h <;> rw [h] <;> rfl
  · have h2 : (run es).2.error = none := foldl_error_none es initial rfl
    rw [hrun] at h2
    exact h2

/-- Witness for C5: the concrete run `UPDATE_CONTENT "hi"` then
`CONTINUE_WRITING` reaches `loading` with content "hi"; `CANCEL` there
returns to `idle` with the same context. -/
theorem cancel_returns_idle_witness :
    step (.loading, ⟨"hi", none⟩) .CANCEL = (.idle, ⟨"hi", none⟩) ∧
    (⟨"hi", none⟩ : Ctx).error = none :=
  have h := cancel_returns_idle [.UPDATE_CONTENT "hi", .CONTINUE_WRITING]
    .loading ⟨"hi", none⟩ rfl (Or.inl rfl)
  ⟨h.1, h.2.1⟩

end Chronicle.CancelMachine
